import Mathlib

/-!
Verification of the ClassX media-sharing portal.

Shallow embedding of the TypeScript sources:
* `AuthContext` (part_000): in-memory authentication state and its operations.
* `StudentDashboard.tsx`: media visibility filter and the student upload batch.
* the legacy student dashboard (part_001): its simpler media filter.
* `AdminDashboard` (part_002): the admin media upload batch with its guards.
* `cloudinary-config.ts` / `supabase-config.ts`: the credential fallback chain,
  save operation, and the upload endpoint selection.
* `StudentLogin.tsx`: student login in both persistence modes.

Remote-backend calls are modelled by explicit state (the settings row, the
stored student list, the stored media list) and by outcome parameters for
operations whose success depends on the network (`upl` for the Cloudinary
upload of one file, `dbIns` for a database insert).
-/

namespace ClassX

/-- Moderation status of a media record (`"pending" | "approved" | "rejected"`). -/
inductive MStatus
  | pending
  | approved
  | rejected
deriving DecidableEq, Repr

/-- Media kind (`"photo" | "video"`). -/
inductive MType
  | photo
  | video
deriving DecidableEq, Repr

/-- One media record, as in the `Media` interface of `StudentDashboard.tsx` and
part_002 (`studentName` is optional in TS; the legacy part_001 records lack
`status`/`uploadedBy`, whose values are irrelevant to the legacy filter). -/
structure MediaItem where
  id : String
  title : String
  mtype : MType
  url : String
  description : String
  studentId : String
  studentName : String
  status : MStatus
  uploadedBy : String
  createdAt : String
deriving DecidableEq, Repr

/-- The localStorage-mode filter of `loadMedia` in `StudentDashboard.tsx`
(lines 104-107): approved and targeted at the student or at `"all"`,
or uploaded by the student. -/
def visibleFilterLocal (sid : String) (m : MediaItem) : Bool :=
  (m.status == MStatus.approved && (m.studentId == sid || m.studentId == "all"))
    || m.uploadedBy == sid

/-- The Supabase `.or(...)` filter of `loadMedia` in `StudentDashboard.tsx`
(line 81): `and(student_id.eq.SID,status.eq.approved),`
`and(student_id.eq.all,status.eq.approved),uploaded_by.eq.SID`. -/
def orFilterSupabase (sid : String) (m : MediaItem) : Bool :=
  (m.studentId == sid && m.status == MStatus.approved)
    || (m.studentId == "all" && m.status == MStatus.approved)
    || m.uploadedBy == sid

/-- `loadMedia` of `StudentDashboard.tsx`, localStorage mode: the list the
dashboard keeps in its `media` state. -/
def loadMediaLocal (sid : String) (store : List MediaItem) : List MediaItem :=
  store.filter (visibleFilterLocal sid)

/-- `loadMedia` of `StudentDashboard.tsx`, Supabase mode: the rows returned by
the compound OR filter. -/
def loadMediaSupabase (sid : String) (rows : List MediaItem) : List MediaItem :=
  rows.filter (orFilterSupabase sid)

/-- `loadMedia` of the legacy student dashboard (part_001, lines 48-83): both
modes keep exactly the records whose `studentId` equals the student's id
(`.eq("student_id", ...)` remotely, `m.studentId === currentStudent.studentId`
locally). -/
def loadMediaLegacy (sid : String) (store : List MediaItem) : List MediaItem :=
  store.filter (fun m => m.studentId == sid)

/-- Modelled from the spec's words, for comparison with the code: the claimed
visible set — approved and targeted at the student or at the sentinel `"all"`,
together with the items whose uploader is the student. -/
def claimVisible (sid : String) (m : MediaItem) : Bool :=
  (m.status == MStatus.approved && (m.studentId == sid || m.studentId == "all"))
    || m.uploadedBy == sid

/-- A concrete approved media record targeted at all students. -/
def allItem : MediaItem :=
  { id := "m1", title := "Sports Day", mtype := MType.photo, url := "u1"
    description := "", studentId := "all", studentName := "All Students"
    status := MStatus.approved, uploadedBy := "admin", createdAt := "2024-01-01" }

/-- C1 counterexample: the claim fails on the legacy student dashboard
(part_001), a cited source. For student `"s1"` and a stored list holding one
approved record targeted at `"all"`, the claimed visible set contains the
record, but the legacy `loadMedia` displays nothing. -/
theorem legacy_dashboard_drops_all_targeted :
    claimVisible "s1" allItem = true ∧ loadMediaLegacy "s1" [allItem] = [] := by
  exact ⟨rfl, rfl⟩

/-- C1 amended: the current student dashboard (`StudentDashboard.tsx`) displays,
in both persistence modes, exactly the items that are approved and targeted at
the student or at `"all"`, together with the items uploaded by the student;
the legacy dashboard (part_001) instead displays exactly the items whose target
equals the student's identifier, regardless of status. -/
theorem student_dashboard_visibility (sid : String) (store : List MediaItem)
    (m : MediaItem) :
    (m ∈ loadMediaLocal sid store ↔ m ∈ store ∧ claimVisible sid m = true)
    ∧ (m ∈ loadMediaSupabase sid store ↔ m ∈ store ∧ claimVisible sid m = true)
    ∧ (m ∈ loadMediaLegacy sid store ↔ m ∈ store ∧ m.studentId = sid) := by
  have hbool : ∀ x y z w : Bool,
      ((y && x) || (z && x) || w) = ((x && (y || z)) || w) := by decide
  refine ⟨?_, ?_, ?_⟩
  · simp [loadMediaLocal, List.mem_filter, visibleFilterLocal, claimVisible]
  · rw [claimVisible, ← hbool (m.status == MStatus.approved)
      (m.studentId == sid) (m.studentId == "all") (m.uploadedBy == sid)]
    simp [loadMediaSupabase, List.mem_filter, orFilterSupabase]
  · simp [loadMediaLegacy, List.mem_filter]

/-- One student record, as in the `Student` interface (part_000,
`StudentLogin.tsx`, part_002). The TS fields `class` and `section` are Lean
keywords and are embedded as `className` and `sectionName`. -/
structure Student where
  id : String
  studentId : String
  password : String
  name : String
  rollNo : String
  className : String
  sectionName : String
  email : String
  phone : String
deriving DecidableEq, Repr

/-- The authentication state held by `AuthProvider` (part_000, lines 26-48). -/
structure AuthState where
  isAdminLoggedIn : Bool
  isStudentLoggedIn : Bool
  currentStudent : Option Student
deriving DecidableEq, Repr

/-- The three `useState(false/false/null)` initial values of `AuthProvider`. -/
def initialAuth : AuthState :=
  { isAdminLoggedIn := false, isStudentLoggedIn := false, currentStudent := none }

/-- `adminLogin` of part_000, lines 31-37: returns whether login succeeded and
the resulting state. It consults no stored record — the function reads only its
two string arguments and the current state. -/
def adminLoginFn (username password : String) (s : AuthState) : Bool × AuthState :=
  if username == "admin" && password == "admin123" then
    (true, { s with isAdminLoggedIn := true })
  else
    (false, s)

/-- `studentLogin` of part_000, lines 39-42. -/
def studentLoginFn (st : Student) (s : AuthState) : AuthState :=
  { s with currentStudent := some st, isStudentLoggedIn := true }

/-- `logout` of part_000, lines 44-48. -/
def logoutFn (_s : AuthState) : AuthState :=
  { isAdminLoggedIn := false, isStudentLoggedIn := false, currentStudent := none }

/-- States reachable from the initial state by any sequence of `adminLogin`,
`studentLogin` and `logout`. -/
inductive ReachableAuth : AuthState → Prop
  | init : ReachableAuth initialAuth
  | admin (u p : String) (s : AuthState) :
      ReachableAuth s → ReachableAuth (adminLoginFn u p s).2
  | student (st : Student) (s : AuthState) :
      ReachableAuth s → ReachableAuth (studentLoginFn st s)
  | logout (s : AuthState) : ReachableAuth s → ReachableAuth (logoutFn s)

/-- C9: in every reachable authentication state, `isStudentLoggedIn` is true
exactly when `currentStudent` is non-null, and `logout` resets every state to
the initial one (all flags false, no current student). -/
theorem auth_student_flag_invariant :
    (∀ s : AuthState, ReachableAuth s →
      s.isStudentLoggedIn = s.currentStudent.isSome)
    ∧ (∀ s : AuthState, logoutFn s = initialAuth) := by
  constructor
  · intro s h
    induction h with
    | init => rfl
    | admin u p s' _ ih =>
        unfold adminLoginFn
        split <;> simpa using ih
    | student st s' _ _ => rfl
    | logout s' _ _ => rfl
  · intro s
    rfl

/-- A concrete student record used by witnesses. -/
def demoStudent : Student :=
  { id := "1", studentId := "s1", password := "pw1", name := "Asha"
    rollNo := "7", className := "X", sectionName := "A"
    email := "", phone := "" }

/-- C9 witness: the invariant evaluated at the concrete reachable state reached
by logging in the demo student from the initial state. -/
theorem auth_student_flag_invariant_witness :
    (studentLoginFn demoStudent initialAuth).isStudentLoggedIn
      = (studentLoginFn demoStudent initialAuth).currentStudent.isSome :=
  auth_student_flag_invariant.1 (studentLoginFn demoStudent initialAuth)
    (ReachableAuth.student demoStudent initialAuth ReachableAuth.init)

/-- C10: `adminLogin` succeeds and sets the admin flag exactly when the pair is
the constant `("admin", "admin123")`; on any other pair it returns false and
leaves the state unchanged. The embedding `adminLoginFn` takes no stored
records — no store is consulted. -/
theorem adminLogin_characterization (u p : String) (s : AuthState) :
    adminLoginFn u p s =
      if u = "admin" ∧ p = "admin123" then
        (true, { s with isAdminLoggedIn := true })
      else
        (false, s) := by
  by_cases h : u = "admin" ∧ p = "admin123"
  · obtain ⟨hu, hp⟩ := h
    simp [adminLoginFn, hu, hp]
  · rw [if_neg h]
    unfold adminLoginFn
    rcases Decidable.not_and_iff_or_not.mp h with h1 | h1 <;>
      simp [beq_eq_false_iff_ne.mpr h1]

/-- The inline error of `StudentLogin.tsx` when no stored record matches. -/
def invalidLoginMsg : String := "Invalid Student ID or Password"

/-- The match predicate of `handleSubmit` in `StudentLogin.tsx`: the stored
student has the submitted id and password (`.eq("student_id", studentId)`
`.eq("password", password)` remotely, `s.studentId === studentId &&`
`s.password === password` locally). -/
def loginMatches (sid pw : String) (s : Student) : Bool :=
  s.studentId == sid && s.password == pw

/-- `handleSubmit` of `StudentLogin.tsx` (lines 26-83). `mode` is
`isSupabaseConfigured() && supabase`; `stored` is the students table (remote
mode) or the parsed `classX_students` list (localStorage mode). The remote
query ends in `.single()`, which succeeds only when exactly one row matches;
the local path takes the first match via `find`. -/
def handleStudentLogin (mode : Bool) (stored : List Student) (sid pw : String) :
    Except String Student :=
  if mode then
    match stored.filter (loginMatches sid pw) with
    | [s] => Except.ok s
    | _ => Except.error invalidLoginMsg
  else
    match stored.find? (loginMatches sid pw) with
    | some s => Except.ok s
    | none => Except.error invalidLoginMsg

/-- Whether a login attempt succeeded. -/
def loginOk : Except String Student → Bool
  | Except.ok _ => true
  | Except.error _ => false

lemma find?_isSome_iff (p : Student → Bool) (l : List Student) :
    (l.find? p).isSome = true ↔ ∃ s ∈ l, p s = true := by
  induction l with
  | nil => simp [List.find?]
  | cons a t ih =>
      rw [List.find?]
      cases h : p a with
      | true => simp [h]
      | false =>
          simp only [h, List.mem_cons, exists_eq_or_imp, Bool.false_eq_true,
            false_or]
          exact ih

/-- C4 counterexample: login success is not equivalent to the existence of a
matching stored record. With two identical stored rows for the demo student,
the pair matches a stored record, yet the remote-mode login — whose query ends
in `.single()`, which errors when more than one row matches — reports
"Invalid Student ID or Password". -/
theorem duplicate_rows_fail_remote_login :
    demoStudent.studentId = "s1" ∧ demoStudent.password = "pw1"
    ∧ demoStudent ∈ [demoStudent, demoStudent]
    ∧ handleStudentLogin true [demoStudent, demoStudent] "s1" "pw1"
        = Except.error invalidLoginMsg := by
  exact ⟨rfl, rfl, List.mem_cons_self _ _, rfl⟩

/-- C4 amended: in localStorage mode student login succeeds if and only if some
stored student has the submitted id and password; in remote mode it succeeds if
and only if exactly one stored row matches the pair (so success still implies a
matching record, but duplicate matching rows make the `.single()` query error);
every failure reports "Invalid Student ID or Password"; and admin login
succeeds exactly when the pair matches the stored constants
`("admin", "admin123")`. -/
theorem student_login_match_characterization (stored : List Student)
    (sid pw : String) :
    (loginOk (handleStudentLogin false stored sid pw) = true
      ↔ ∃ s ∈ stored, s.studentId = sid ∧ s.password = pw)
    ∧ (loginOk (handleStudentLogin true stored sid pw) = true
      ↔ (stored.filter (loginMatches sid pw)).length = 1)
    ∧ (loginOk (handleStudentLogin true stored sid pw) = true
      → ∃ s ∈ stored, s.studentId = sid ∧ s.password = pw)
    ∧ (∀ mode e, handleStudentLogin mode stored sid pw = Except.error e →
        e = invalidLoginMsg)
    ∧ (∀ u p a, (adminLoginFn u p a).1 = true ↔ u = "admin" ∧ p = "admin123") := by
  have hmatch : ∀ s : Student, loginMatches sid pw s = true
      ↔ s.studentId = sid ∧ s.password = pw := by
    intro s
    simp [loginMatches]
  refine ⟨?_, ?_, ?_, ?_, ?_⟩
  · rw [handleStudentLogin, if_neg (by simp)]
    rcases hf : stored.find? (loginMatches sid pw) with _ | s
    · constructor
      · intro hk
        simp [loginOk] at hk
      · intro ⟨s, hs, hsid, hpw⟩
        have hsome : (stored.find? (loginMatches sid pw)).isSome = true :=
          (find?_isSome_iff _ _).mpr ⟨s, hs, (hmatch s).mpr ⟨hsid, hpw⟩⟩
        rw [hf] at hsome
        simp at hsome
    · constructor
      · intro _
        exact ⟨s, List.mem_of_find?_eq_some hf,
          (hmatch s).mp (List.find?_some hf)⟩
      · intro _
        rfl
  · rw [handleStudentLogin, if_pos rfl]
    rcases hf : stored.filter (loginMatches sid pw) with _ | ⟨s, _ | ⟨s2, rest⟩⟩
    · constructor
      · intro hk
        simp [loginOk] at hk
      · intro hlen
        simp at hlen
    · constructor
      · intro _
        rfl
      · intro _
        rfl
    · constructor
      · intro hk
        simp [loginOk] at hk
      · intro hlen
        simp [List.length_cons] at hlen
  · intro hk
    rw [handleStudentLogin, if_pos rfl] at hk
    rcases hf : stored.filter (loginMatches sid pw) with _ | ⟨s, _ | ⟨s2, rest⟩⟩ <;>
      rw [hf] at hk
    · simp [loginOk] at hk
    · have hs : s ∈ stored.filter (loginMatches sid pw) := by
        rw [hf]
        exact List.mem_singleton.mpr rfl
      rw [List.mem_filter] at hs
      exact ⟨s, hs.1, (hmatch s).mp hs.2⟩
    · simp [loginOk] at hk
  · intro mode e he
    rw [handleStudentLogin] at he
    cases mode with
    | false =>
        rw [if_neg (by simp)] at he
        split at he
        · simp at he
        · injection he with h1
          exact h1.symm
    | true =>
        rw [if_pos rfl] at he
        split at he
        · simp at he
        · injection he with h1
          exact h1.symm
  · intro u p a
    unfold adminLoginFn
    by_cases hc : u = "admin" ∧ p = "admin123"
    · obtain ⟨hu, hp⟩ := hc
      simp [hu, hp]
    · rcases Decidable.not_and_iff_or_not.mp hc with h1 | h1 <;>
        simp [beq_eq_false_iff_ne.mpr h1, hc]

/-- C4 witness: the characterization applied to a concrete one-student store —
localStorage-mode login succeeds for the matching pair, and remote-mode login
with the duplicated store fails, both concluded through the theorem. -/
theorem student_login_match_characterization_witness :
    loginOk (handleStudentLogin false [demoStudent] "s1" "pw1") = true
    ∧ loginOk (handleStudentLogin true [demoStudent, demoStudent] "s1" "pw1")
        = false := by
  have h1 := student_login_match_characterization [demoStudent] "s1" "pw1"
  have h2 := student_login_match_characterization [demoStudent, demoStudent]
    "s1" "pw1"
  refine ⟨h1.1.mpr ⟨demoStudent, List.mem_singleton.mpr rfl, rfl, rfl⟩, ?_⟩
  cases hb : loginOk (handleStudentLogin true [demoStudent, demoStudent]
      "s1" "pw1") with
  | false => rfl
  | true => exact absurd (h2.2.1.mp hb) (by decide)

/-- A selected browser `File`: name, size in bytes, MIME type. -/
structure FileInfo where
  name : String
  size : Nat
  mime : String
deriving DecidableEq, Repr

/-- `MAX_FILE_SIZE` of part_002, line 341: `100 * 1024 * 1024` (100 MB). -/
def MAX_FILE_SIZE : Nat := 100 * 1024 * 1024

/-- JavaScript `String.prototype.startsWith`, embedded structurally over the
character list so the kernel can evaluate it. -/
def strStartsWith (s p : String) : Bool := p.data.isPrefixOf s.data

/-- The media kind chosen for a file on both upload paths:
`file.type.startsWith("video/") ? "video" : "photo"`. -/
def mediaTypeOf (f : FileInfo) : MType :=
  if strStartsWith f.mime "video/" then MType.video else MType.photo

/-- Title numbering of part_002 `handleMediaSubmit`:
the bare title for a single file, else `title (i+1)`. -/
def adminFileTitle (title : String) (n i : Nat) : String :=
  if n == 1 then title else title ++ " (" ++ toString (i + 1) ++ ")"

/-- Title numbering of `StudentDashboard.tsx` `handleUploadSubmit`:
`title (i+1)` when more than one file is selected, else the bare title. -/
def studentFileTitle (title : String) (n i : Nat) : String :=
  if 1 < n then title ++ " (" ++ toString (i + 1) ++ ")" else title

/-- The media record created for one file by part_002 `handleMediaSubmit`.
`mode` is `isSupabaseConfigured() && supabase`; in remote mode the id and
timestamp are assigned server-side (embedded as `""`), in local mode the id is
`Date.now() + "_" + i` and the timestamp `new Date().toISOString()` (both
derived from the clock parameter `now`). -/
def adminRecord (mode : Bool) (title desc tid tname : String) (n i : Nat)
    (f : FileInfo) (url now : String) : MediaItem :=
  { id := if mode then "" else now ++ "_" ++ toString i
    title := adminFileTitle title n i
    mtype := mediaTypeOf f
    url := url
    description := desc
    studentId := tid
    studentName := tname
    status := MStatus.approved
    uploadedBy := "admin"
    createdAt := if mode then "" else now }

/-- The media record created for one file by `StudentDashboard.tsx`
`handleUploadSubmit` (lines 203-214): always `status: "pending"`, uploaded by
the logged-in student, targeted at that same student. -/
def studentRecord (mode : Bool) (stu : Student) (title desc : String) (n i : Nat)
    (f : FileInfo) (url now : String) : MediaItem :=
  { id := if mode then "" else now ++ toString i
    title := studentFileTitle title n i
    mtype := mediaTypeOf f
    url := url
    description := desc
    studentId := stu.studentId
    studentName := stu.name
    status := MStatus.pending
    uploadedBy := stu.studentId
    createdAt := now }

/-- Outcome of the admin batch: the files for which a Cloudinary upload was
attempted, the records actually written, the success tally and the failure
messages collected in `failedFiles`. -/
structure AdminBatchResult where
  attempted : List FileInfo
  inserted : List MediaItem
  successCount : Nat
  failedFiles : List String
deriving DecidableEq, Repr

/-- The per-file loop of part_002 `handleMediaSubmit` (lines 374-438). `upl`
gives the Cloudinary outcome for a file (`some url` or a thrown error), `dbIns`
whether the remote insert succeeds; a failure on one file records a message and
continues with the rest. -/
def adminProcess (mode : Bool) (title desc tid tname : String) (n : Nat)
    (upl : FileInfo → Option String) (dbIns : MediaItem → Bool) (now : String) :
    Nat → List FileInfo → AdminBatchResult
  | _, [] => ⟨[], [], 0, []⟩
  | i, f :: rest =>
    let r := adminProcess mode title desc tid tname n upl dbIns now (i + 1) rest
    match upl f with
    | none =>
        ⟨f :: r.attempted, r.inserted, r.successCount,
          (f.name ++ ": upload failed") :: r.failedFiles⟩
    | some url =>
        let m0 := adminRecord mode title desc tid tname n i f url now
        if mode then
          if dbIns m0 then
            ⟨f :: r.attempted, m0 :: r.inserted, r.successCount + 1, r.failedFiles⟩
          else
            ⟨f :: r.attempted, r.inserted, r.successCount,
              (f.name ++ ": db error") :: r.failedFiles⟩
        else
          ⟨f :: r.attempted, m0 :: r.inserted, r.successCount + 1, r.failedFiles⟩

/-- The reasons part_002 `handleMediaSubmit` returns before uploading anything. -/
inductive AdminAbort
  | noFileOrStudent
  | notConfigured
  | oversized (names : List String)
deriving DecidableEq, Repr

/-- part_002 `handleMediaSubmit` (lines 343-453): guard on empty selection,
guard on Cloudinary configuration, then the 100 MB gate over all selected
files; only when every guard passes does the per-file upload loop run. -/
def adminBatch (connected mode : Bool) (title desc tid tname : String)
    (files : List FileInfo) (upl : FileInfo → Option String)
    (dbIns : MediaItem → Bool) (now : String) :
    Except AdminAbort AdminBatchResult :=
  if files.isEmpty || tid == "" then Except.error AdminAbort.noFileOrStudent
  else if !connected then Except.error AdminAbort.notConfigured
  else if (files.filter (fun f => MAX_FILE_SIZE < f.size)).isEmpty then
    Except.ok (adminProcess mode title desc tid tname files.length upl dbIns now 0 files)
  else
    Except.error (AdminAbort.oversized
      ((files.filter (fun f => MAX_FILE_SIZE < f.size)).map FileInfo.name))

/-- Outcome of the student batch: attempted files, written records, and the
`successCount` / `failCount` tallies of `handleUploadSubmit`. -/
structure StudentBatchResult where
  attempted : List FileInfo
  inserted : List MediaItem
  successCount : Nat
  failCount : Nat
deriving DecidableEq, Repr

/-- The per-file loop of `StudentDashboard.tsx` `handleUploadSubmit`
(lines 190-243): every file is passed to `uploadToCloudinary` — there is no
size check — and a per-file `catch` tallies a failure and continues. -/
def studentProcess (mode : Bool) (stu : Student) (title desc : String) (n : Nat)
    (upl : FileInfo → Option String) (dbIns : MediaItem → Bool) (now : String) :
    Nat → List FileInfo → StudentBatchResult
  | _, [] => ⟨[], [], 0, 0⟩
  | i, f :: rest =>
    let r := studentProcess mode stu title desc n upl dbIns now (i + 1) rest
    match upl f with
    | none =>
        ⟨f :: r.attempted, r.inserted, r.successCount, r.failCount + 1⟩
    | some url =>
        let m0 := studentRecord mode stu title desc n i f url now
        if mode then
          if dbIns m0 then
            ⟨f :: r.attempted, m0 :: r.inserted, r.successCount + 1, r.failCount⟩
          else
            ⟨f :: r.attempted, r.inserted, r.successCount, r.failCount + 1⟩
        else
          ⟨f :: r.attempted, m0 :: r.inserted, r.successCount + 1, r.failCount⟩

/-- The reasons `handleUploadSubmit` returns before uploading anything: no
file selected, or Cloudinary not configured. -/
inductive StudentAbort
  | noFiles
  | notConfigured
deriving DecidableEq, Repr

/-- `StudentDashboard.tsx` `handleUploadSubmit` (lines 175-264): guard on empty
selection and on Cloudinary configuration, then the per-file loop over every
selected file. -/
def studentBatch (configured mode : Bool) (stu : Student) (title desc : String)
    (files : List FileInfo) (upl : FileInfo → Option String)
    (dbIns : MediaItem → Bool) (now : String) :
    Except StudentAbort StudentBatchResult :=
  if files.isEmpty then Except.error StudentAbort.noFiles
  else if !configured then Except.error StudentAbort.notConfigured
  else
    Except.ok (studentProcess mode stu title desc files.length upl dbIns now 0 files)

lemma adminProcess_attempted (mode : Bool) (title desc tid tname : String)
    (n : Nat) (upl : FileInfo → Option String) (dbIns : MediaItem → Bool)
    (now : String) (i : Nat) (files : List FileInfo) :
    (adminProcess mode title desc tid tname n upl dbIns now i files).attempted
      = files := by
  induction files generalizing i with
  | nil => rfl
  | cons f rest ih =>
      rw [adminProcess]
      cases upl f with
      | none => simp [ih]
      | some url =>
          cases mode with
          | false => simp [ih]
          | true =>
              simp only [if_true]
              split <;> simp [ih]

lemma adminProcess_tally (mode : Bool) (title desc tid tname : String)
    (n : Nat) (upl : FileInfo → Option String) (dbIns : MediaItem → Bool)
    (now : String) (i : Nat) (files : List FileInfo) :
    (adminProcess mode title desc tid tname n upl dbIns now i files).successCount
      + (adminProcess mode title desc tid tname n upl dbIns now i files).failedFiles.length
      = files.length := by
  induction files generalizing i with
  | nil => rfl
  | cons f rest ih =>
      rw [adminProcess]
      cases upl f with
      | none =>
          simp only [List.length_cons, ← ih (i + 1)]
          omega
      | some url =>
          cases mode with
          | false =>
              simp only [Bool.false_eq_true, if_false, List.length_cons,
                ← ih (i + 1)]
              omega
          | true =>
              simp only [if_true]
              split <;>
                (simp only [List.length_cons, ← ih (i + 1)]; omega)

lemma adminProcess_inserted (mode : Bool) (title desc tid tname : String)
    (n : Nat) (upl : FileInfo → Option String) (dbIns : MediaItem → Bool)
    (now : String) (i : Nat) (files : List FileInfo) (m : MediaItem)
    (hm : m ∈ (adminProcess mode title desc tid tname n upl dbIns now i files).inserted) :
    m.status = MStatus.approved ∧ m.uploadedBy = "admin" := by
  induction files generalizing i with
  | nil => simp [adminProcess] at hm
  | cons f rest ih =>
      rw [adminProcess] at hm
      cases hu : upl f with
      | none =>
          rw [hu] at hm
          exact ih i.succ hm
      | some url =>
          rw [hu] at hm
          cases mode with
          | false =>
              simp only [Bool.false_eq_true, if_false] at hm
              rcases List.mem_cons.mp hm with h0 | h0
              · subst h0
                exact ⟨rfl, rfl⟩
              · exact ih i.succ h0
          | true =>
              simp only [if_true] at hm
              by_cases hd : dbIns (adminRecord true title desc tid tname n i f url now)
              · rw [if_pos hd] at hm
                rcases List.mem_cons.mp hm with h0 | h0
                · subst h0
                  exact ⟨rfl, rfl⟩
                · exact ih i.succ h0
              · rw [if_neg hd] at hm
                exact ih i.succ hm

lemma studentProcess_attempted (mode : Bool) (stu : Student) (title desc : String)
    (n : Nat) (upl : FileInfo → Option String) (dbIns : MediaItem → Bool)
    (now : String) (i : Nat) (files : List FileInfo) :
    (studentProcess mode stu title desc n upl dbIns now i files).attempted
      = files := by
  induction files generalizing i with
  | nil => rfl
  | cons f rest ih =>
      rw [studentProcess]
      cases upl f with
      | none => simp [ih]
      | some url =>
          cases mode with
          | false => simp [ih]
          | true =>
              simp only [if_true]
              split <;> simp [ih]

lemma studentProcess_tally (mode : Bool) (stu : Student) (title desc : String)
    (n : Nat) (upl : FileInfo → Option String) (dbIns : MediaItem → Bool)
    (now : String) (i : Nat) (files : List FileInfo) :
    (studentProcess mode stu title desc n upl dbIns now i files).successCount
      + (studentProcess mode stu title desc n upl dbIns now i files).failCount
      = files.length := by
  induction files generalizing i with
  | nil => rfl
  | cons f rest ih =>
      rw [studentProcess]
      cases upl f with
      | none =>
          simp only [List.length_cons, ← ih (i + 1)]
          omega
      | some url =>
          cases mode with
          | false =>
              simp only [Bool.false_eq_true, if_false, List.length_cons,
                ← ih (i + 1)]
              omega
          | true =>
              simp only [if_true]
              split <;>
                (simp only [List.length_cons, ← ih (i + 1)]; omega)

lemma studentProcess_inserted (mode : Bool) (stu : Student) (title desc : String)
    (n : Nat) (upl : FileInfo → Option String) (dbIns : MediaItem → Bool)
    (now : String) (i : Nat) (files : List FileInfo) (m : MediaItem)
    (hm : m ∈ (studentProcess mode stu title desc n upl dbIns now i files).inserted) :
    m.status = MStatus.pending ∧ m.uploadedBy = stu.studentId := by
  induction files generalizing i with
  | nil => simp [studentProcess] at hm
  | cons f rest ih =>
      rw [studentProcess] at hm
      cases hu : upl f with
      | none =>
          rw [hu] at hm
          exact ih i.succ hm
      | some url =>
          rw [hu] at hm
          cases mode with
          | false =>
              simp only [Bool.false_eq_true, if_false] at hm
              rcases List.mem_cons.mp hm with h0 | h0
              · subst h0
                exact ⟨rfl, rfl⟩
              · exact ih i.succ h0
          | true =>
              simp only [if_true] at hm
              by_cases hd : dbIns (studentRecord true stu title desc n i f url now)
              · rw [if_pos hd] at hm
                rcases List.mem_cons.mp hm with h0 | h0
                · subst h0
                  exact ⟨rfl, rfl⟩
                · exact ih i.succ h0
              · rw [if_neg hd] at hm
                exact ih i.succ hm

/-- The final alert of part_002 `handleMediaSubmit` (lines 446-452): all
succeeded, a mixed tally, or all failed. -/
inductive AdminReport
  | allOk (successCount : Nat)
  | mixed (successCount : Nat) (failed : List String)
  | allFailed (failed : List String)
deriving DecidableEq, Repr

/-- How part_002 picks its final alert from the tallies. -/
def adminReportOf (r : AdminBatchResult) : AdminReport :=
  if r.failedFiles.isEmpty then AdminReport.allOk r.successCount
  else if 0 < r.successCount then AdminReport.mixed r.successCount r.failedFiles
  else AdminReport.allFailed r.failedFiles

/-- The success/failure counts a reader extracts from the admin alert. -/
def adminReportCounts : AdminReport → Nat × Nat
  | AdminReport.allOk s => (s, 0)
  | AdminReport.mixed s fl => (s, fl.length)
  | AdminReport.allFailed fl => (0, fl.length)

/-- The two end-of-batch alerts of `handleUploadSubmit` (lines 245-256): a
success alert shown when `successCount > 0` and a failure alert shown when
`failCount > 0`, each carrying its tally. -/
def studentAlertsOf (r : StudentBatchResult) : Option Nat × Option Nat :=
  (if 0 < r.successCount then some r.successCount else none,
   if 0 < r.failCount then some r.failCount else none)

/-- The counts a reader extracts from the student alerts (absent alert = 0). -/
def studentAlertCounts (p : Option Nat × Option Nat) : Nat × Nat :=
  (p.1.getD 0, p.2.getD 0)

lemma adminReportCounts_eq (r : AdminBatchResult) :
    adminReportCounts (adminReportOf r) = (r.successCount, r.failedFiles.length) := by
  rw [adminReportOf]
  by_cases he : r.failedFiles.isEmpty
  · rw [if_pos he, adminReportCounts]
    have : r.failedFiles.length = 0 := by
      simpa [List.isEmpty_iff] using he
    rw [this]
  · rw [if_neg he]
    by_cases hs : 0 < r.successCount
    · rw [if_pos hs, adminReportCounts]
    · rw [if_neg hs, adminReportCounts]
      have : r.successCount = 0 := by omega
      rw [this]

lemma studentAlertCounts_eq (r : StudentBatchResult) :
    studentAlertCounts (studentAlertsOf r) = (r.successCount, r.failCount) := by
  rw [studentAlertsOf, studentAlertCounts]
  by_cases hs : 0 < r.successCount <;> by_cases hf : 0 < r.failCount <;>
    simp [hs, hf, Prod.ext_iff] <;> omega

/-- C2: every record created by the admin upload operation (part_002
`handleMediaSubmit`) has status `"approved"` at creation, and every record
created by the student upload operation (`handleUploadSubmit`) has status
`"pending"` at creation, for all inputs and in both persistence modes
(`mode` ranges over both). -/
theorem upload_status_invariant (connected mode configured : Bool)
    (title desc tid tname : String) (files : List FileInfo)
    (upl : FileInfo → Option String) (dbIns : MediaItem → Bool) (now : String)
    (stu : Student) (r : AdminBatchResult) (r' : StudentBatchResult) :
    (adminBatch connected mode title desc tid tname files upl dbIns now
        = Except.ok r →
      ∀ m ∈ r.inserted, m.status = MStatus.approved ∧ m.uploadedBy = "admin")
    ∧ (studentBatch configured mode stu title desc files upl dbIns now
        = Except.ok r' →
      ∀ m ∈ r'.inserted, m.status = MStatus.pending ∧ m.uploadedBy = stu.studentId) := by
  constructor
  · intro h m hm
    rw [adminBatch] at h
    split at h
    · simp at h
    · split at h
      · simp at h
      · split at h
        · injection h with h1
          subst h1
          exact adminProcess_inserted mode title desc tid tname files.length
            upl dbIns now 0 files m hm
        · simp at h
  · intro h m hm
    rw [studentBatch] at h
    split at h
    · simp at h
    · split at h
      · simp at h
      · injection h with h1
        subst h1
        exact studentProcess_inserted mode stu title desc files.length
          upl dbIns now 0 files m hm

/-- A small image file used by witnesses. -/
def f1 : FileInfo := { name := "pic.png", size := 1000, mime := "image/png" }

/-- The record the admin batch creates for `f1` in local mode. -/
def aRec0 : MediaItem :=
  adminRecord false "T" "" "all" "All Students" 1 0 f1 "http://u" "99"

/-- The record the student batch creates for `f1` in local mode. -/
def sRec0 : MediaItem :=
  studentRecord false demoStudent "T" "" 1 0 f1 "http://u" "99"

/-- C2 witness: the invariant applied to a concrete one-file admin batch and a
concrete one-file student batch, with the batch equations discharged by
computation. -/
theorem upload_status_invariant_witness :
    aRec0.status = MStatus.approved ∧ sRec0.status = MStatus.pending := by
  have h := upload_status_invariant true false true "T" "" "all" "All Students"
    [f1] (fun _ => some "http://u") (fun _ => true) "99" demoStudent
    ⟨[f1], [aRec0], 1, []⟩ ⟨[f1], [sRec0], 1, 0⟩
  exact ⟨(h.1 rfl aRec0 (List.mem_singleton.mpr rfl)).1,
    (h.2 rfl sRec0 (List.mem_singleton.mpr rfl)).1⟩

/-- An oversized file: one byte over the 100 MB limit. -/
def bigFile : FileInfo :=
  { name := "big.mp4", size := 100 * 1024 * 1024 + 1, mime := "video/mp4" }

/-- C3 counterexample: the 100 MB gate does not apply to the student upload
path. For a file one byte over the limit, `handleUploadSubmit` does not reject
it client-side: the batch runs, the Cloudinary upload of the oversized file is
attempted (it appears in `attempted`), and the record is even stored. -/
theorem student_upload_no_size_gate :
    MAX_FILE_SIZE < bigFile.size
    ∧ studentBatch true true demoStudent "Trip" "" [bigFile]
        (fun _ => some "http://u") (fun _ => true) "99"
      = Except.ok ⟨[bigFile],
          [studentRecord true demoStudent "Trip" "" 1 0 bigFile "http://u" "99"],
          1, 0⟩ := by
  exact ⟨by decide, rfl⟩

/-- C3 amended: the client-side 100 MB gate is enforced only on the admin media
submission (part_002): when any selected file exceeds the limit and the earlier
guards pass, the whole batch aborts with the oversized list before any upload
is attempted. The student upload path has no size check: the batch always runs
and attempts a Cloudinary upload for every selected file, whatever its size. -/
theorem size_gate_admin_path_only (mode : Bool) (title desc tid tname : String)
    (files : List FileInfo) (upl : FileInfo → Option String)
    (dbIns : MediaItem → Bool) (now : String) (stu : Student) :
    (files.isEmpty = false → (tid == "") = false →
      (files.filter (fun f => MAX_FILE_SIZE < f.size)).isEmpty = false →
      adminBatch true mode title desc tid tname files upl dbIns now
        = Except.error (AdminAbort.oversized
            ((files.filter (fun f => MAX_FILE_SIZE < f.size)).map FileInfo.name)))
    ∧ (files.isEmpty = false →
      studentBatch true mode stu title desc files upl dbIns now
        = Except.ok (studentProcess mode stu title desc files.length upl dbIns now 0 files)
      ∧ (studentProcess mode stu title desc files.length upl dbIns now 0 files).attempted
          = files) := by
  constructor
  · intro h1 h2 h3
    rw [adminBatch]
    simp [h1, h2, h3]
  · intro h1
    refine ⟨?_, ?_⟩
    · rw [studentBatch]
      simp [h1]
    · exact studentProcess_attempted mode stu title desc files.length
        upl dbIns now 0 files

/-- C3 witness: the amended statement applied at concrete inputs — an admin
batch holding the oversized file aborts with that file's name, and a student
batch holding it attempts every file. -/
theorem size_gate_admin_path_only_witness :
    adminBatch true false "T" "" "all" "All Students" [bigFile]
        (fun _ => some "http://u") (fun _ => true) "99"
      = Except.error (AdminAbort.oversized ["big.mp4"])
    ∧ (studentProcess false demoStudent "T" "" 1
        (fun _ => some "http://u") (fun _ => true) "99" 0 [bigFile]).attempted
      = [bigFile] := by
  have h := size_gate_admin_path_only false "T" "" "all" "All Students"
    [bigFile] (fun _ => some "http://u") (fun _ => true) "99" demoStudent
  exact ⟨h.1 rfl rfl rfl, (h.2 rfl).2⟩

/-- C8: on both batch-upload paths, when the guards pass every selected file is
attempted (a failure on one file does not abort the rest), the success tally
plus the failure tally equals the number of files, and the end-of-batch report
carries exactly those two tallies. -/
theorem batch_tally_reported (connected mode configured : Bool)
    (title desc tid tname : String) (files : List FileInfo)
    (upl : FileInfo → Option String) (dbIns : MediaItem → Bool) (now : String)
    (stu : Student) (r : AdminBatchResult) (r' : StudentBatchResult) :
    (adminBatch connected mode title desc tid tname files upl dbIns now
        = Except.ok r →
      r.attempted = files
      ∧ r.successCount + r.failedFiles.length = files.length
      ∧ adminReportCounts (adminReportOf r) = (r.successCount, r.failedFiles.length))
    ∧ (studentBatch configured mode stu title desc files upl dbIns now
        = Except.ok r' →
      r'.attempted = files
      ∧ r'.successCount + r'.failCount = files.length
      ∧ studentAlertCounts (studentAlertsOf r') = (r'.successCount, r'.failCount)) := by
  constructor
  · intro h
    rw [adminBatch] at h
    split at h
    · simp at h
    · split at h
      · simp at h
      · split at h
        · injection h with h1
          subst h1
          exact ⟨adminProcess_attempted mode title desc tid tname files.length
              upl dbIns now 0 files,
            adminProcess_tally mode title desc tid tname files.length
              upl dbIns now 0 files,
            adminReportCounts_eq _⟩
        · simp at h
  · intro h
    rw [studentBatch] at h
    split at h
    · simp at h
    · split at h
      · simp at h
      · injection h with h1
        subst h1
        exact ⟨studentProcess_attempted mode stu title desc files.length
            upl dbIns now 0 files,
          studentProcess_tally mode stu title desc files.length
            upl dbIns now 0 files,
          studentAlertCounts_eq _⟩

/-- C8 witness: the tally property applied to a concrete two-file batch in
which the second upload fails — both files attempted, one success plus one
failure equals two. -/
theorem batch_tally_reported_witness :
    (⟨[f1, bigFile],
        [studentRecord false demoStudent "T" "" 2 0 f1 "http://u" "99"],
        1, 1⟩ : StudentBatchResult).attempted
        = [f1, bigFile]
    ∧ (1 : Nat) + 1 = ([f1, bigFile] : List FileInfo).length := by
  have h := (batch_tally_reported true false true "T" "" "all" "All Students"
    [f1, bigFile]
    (fun f => if f.name == "pic.png" then some "http://u" else none)
    (fun _ => true) "99" demoStudent
    ⟨[f1, bigFile], [aRec0], 1, ["big.mp4: upload failed"]⟩
    ⟨[f1, bigFile],
      [studentRecord false demoStudent "T" "" 2 0 f1 "http://u" "99"],
      1, 1⟩).2 rfl
  exact ⟨h.1, h.2.1⟩

/-- The resource type chosen by `uploadToCloudinary` in `cloudinary-config.ts`
(line 193): `file.type.startsWith("video/") ? "video" : "image"`. -/
def uploadResourceType (f : FileInfo) : String :=
  if strStartsWith f.mime "video/" then "video" else "image"

/-- The resource type chosen by `uploadToCloudinary` in part_003 (line 50),
textually the same selection as in `cloudinary-config.ts`. -/
def uploadResourceTypeLegacy (f : FileInfo) : String :=
  if strStartsWith f.mime "video/" then "video" else "image"

/-- The endpoint segment of the local `uploadToCloudinary` inside
`StudentDashboard.tsx` (line 163): the fixed `auto` endpoint, with no
inspection of the file. -/
def uploadSegmentStudentDash (_f : FileInfo) : String := "auto"

/-- The endpoint segment of the local `uploadToCloudinary` inside part_002
(line 43): also the fixed `auto` endpoint. -/
def uploadSegmentAdminDash (_f : FileInfo) : String := "auto"

/-- The full upload URL built by `uploadToCloudinary` in
`cloudinary-config.ts` (line 196). -/
def uploadUrl (cloudName : String) (f : FileInfo) : String :=
  "https://api.cloudinary.com/v1_1/" ++ cloudName ++ "/"
    ++ uploadResourceType f ++ "/upload"

/-- C7 counterexample: the MIME-prefix endpoint selection does not hold on
every upload path. For a file with MIME type `video/mp4`, the upload inside
`StudentDashboard.tsx` posts to the fixed `auto` endpoint, not to `video`. -/
theorem student_dash_uses_auto_endpoint :
    strStartsWith bigFile.mime "video/" = true
    ∧ uploadSegmentStudentDash bigFile = "auto"
    ∧ uploadSegmentStudentDash bigFile ≠ "video" := by
  exact ⟨rfl, rfl, by decide⟩

/-- C7 amended: on the shared uploader of `cloudinary-config.ts` and on the
part_003 uploader, the resource type is `"video"` exactly when the MIME type
starts with `"video/"` and `"image"` otherwise; the uploaders defined inside
`StudentDashboard.tsx` and part_002 instead always use the fixed `auto`
endpoint segment. -/
theorem endpoint_selection_by_mime (f : FileInfo) (cloudName : String) :
    (uploadResourceType f = "video" ↔ strStartsWith f.mime "video/" = true)
    ∧ (uploadResourceType f = "image" ↔ strStartsWith f.mime "video/" = false)
    ∧ uploadResourceTypeLegacy f = uploadResourceType f
    ∧ uploadUrl cloudName f
        = "https://api.cloudinary.com/v1_1/" ++ cloudName ++ "/"
          ++ uploadResourceType f ++ "/upload"
    ∧ uploadSegmentStudentDash f = "auto"
    ∧ uploadSegmentAdminDash f = "auto" := by
  refine ⟨?_, ?_, rfl, rfl, rfl, rfl⟩
  · rw [uploadResourceType]
    cases h : strStartsWith f.mime "video/" with
    | true => simp
    | false => simp
  · rw [uploadResourceType]
    cases h : strStartsWith f.mime "video/" with
    | true => simp
    | false => simp

/-- Outcome of the remote `settings` row with key `"cloudinary"`:
the backend is not configured (no query is issued), the query threw, the row
is absent, or the row is present with its two text columns. -/
inductive RemoteSettings
  | notConfigured
  | fetchError
  | noRow
  | row (cloudName uploadPreset : String)
deriving DecidableEq, Repr

/-- The configuration world seen by the settings module: the module-level
`cachedConfig`, the remote row, the two localStorage keys
(`cloudinary_cloud_name`, `cloudinary_upload_preset`; `none` = key absent),
and the two `import.meta.env` defaults (`none` = variable undefined). -/
structure CfgState where
  cache : Option (String × String)
  remote : RemoteSettings
  localCloudName : Option String
  localUploadPreset : Option String
  envCloudName : Option String
  envUploadPreset : Option String
deriving DecidableEq, Repr

/-- Result of one `loadCloudinarySettings` call: the returned config, the state
afterwards, and whether a remote fetch was issued during the call. -/
structure LoadOutcome where
  result : Option (String × String)
  state : CfgState
  remoteFetched : Bool
deriving DecidableEq, Repr

/-- `getLocalConfig` of `cloudinary-config.ts` (lines 10-19): both localStorage
keys must be present and truthy (the empty string is falsy in JS). -/
def getLocalConfig (st : CfgState) : Option (String × String) :=
  match st.localCloudName, st.localUploadPreset with
  | some cn, some up => if cn ≠ "" ∧ up ≠ "" then some (cn, up) else none
  | _, _ => none

/-- The localStorage and env tiers of `loadCloudinarySettings` in
`cloudinary-config.ts` (lines 59-74), entered when the cache is empty and the
remote tier yielded nothing; both tiers fill the cache on a hit. -/
def ccLocalEnvTiers (st : CfgState) (fetched : Bool) : LoadOutcome :=
  match getLocalConfig st with
  | some c => ⟨some c, { st with cache := some c }, fetched⟩
  | none =>
    match st.envCloudName, st.envUploadPreset with
    | some ecn, some eup =>
        if ecn ≠ "" ∧ eup ≠ "" then
          ⟨some (ecn, eup), { st with cache := some (ecn, eup) }, fetched⟩
        else ⟨none, st, fetched⟩
    | _, _ => ⟨none, st, fetched⟩

/-- `loadCloudinarySettings` of `cloudinary-config.ts` (lines 22-75): cached
config if present; else, when the backend is configured, the remote row —
accepted only when both columns are truthy, in which case it is cached and
mirrored to localStorage; else the localStorage keys; else the env defaults;
else `null`. -/
def loadCloudinarySettingsCC (st : CfgState) : LoadOutcome :=
  match st.cache with
  | some c => ⟨some c, st, false⟩
  | none =>
    match st.remote with
    | RemoteSettings.notConfigured => ccLocalEnvTiers st false
    | RemoteSettings.fetchError => ccLocalEnvTiers st true
    | RemoteSettings.noRow => ccLocalEnvTiers st true
    | RemoteSettings.row cn up =>
        if cn ≠ "" ∧ up ≠ "" then
          ⟨some (cn, up),
            { st with
                cache := some (cn, up)
                localCloudName := some cn
                localUploadPreset := some up },
            true⟩
        else ccLocalEnvTiers st true

/-- The localStorage tier of `loadCloudinarySettings` in `supabase-config.ts`
(lines 54-62): both keys truthy, cached on a hit; on a miss the function
returns `null` — there is no environment tier. -/
def scLocalTier (st : CfgState) (fetched : Bool) : LoadOutcome :=
  match st.localCloudName, st.localUploadPreset with
  | some cn, some up =>
      if cn ≠ "" ∧ up ≠ "" then
        ⟨some (cn, up), { st with cache := some (cn, up) }, fetched⟩
      else ⟨none, st, fetched⟩
  | _, _ => ⟨none, st, fetched⟩

/-- `loadCloudinarySettings` of `supabase-config.ts` (lines 29-63): cached
config if present; else the remote row via `.single()` — any present row is
accepted (`data.cloud_name || ''`) and cached, without a localStorage mirror;
else the localStorage keys; else `null`. -/
def loadCloudinarySettingsSC (st : CfgState) : LoadOutcome :=
  match st.cache with
  | some c => ⟨some c, st, false⟩
  | none =>
    match st.remote with
    | RemoteSettings.notConfigured => scLocalTier st false
    | RemoteSettings.fetchError => scLocalTier st true
    | RemoteSettings.noRow => scLocalTier st true
    | RemoteSettings.row cn up =>
        ⟨some (cn, up), { st with cache := some (cn, up) }, true⟩

/-- The lower tiers of the claimed chain: localStorage keys, else env
defaults, else not configured. -/
def chainLocalEnv (st : CfgState) : Option (String × String) :=
  match getLocalConfig st with
  | some c => some c
  | none =>
    match st.envCloudName, st.envUploadPreset with
    | some ecn, some eup =>
        if ecn ≠ "" ∧ eup ≠ "" then some (ecn, eup) else none
    | _, _ => none

/-- Modelled from the spec's words, for comparison with the code: the claimed
five-tier fallback — cache, else the remote row (both columns truthy), else
the two localStorage keys, else the two env defaults, else not configured. -/
def claimedFallbackChain (st : CfgState) : Option (String × String) :=
  match st.cache with
  | some c => some c
  | none =>
    match st.remote with
    | RemoteSettings.row cn up =>
        if cn ≠ "" ∧ up ≠ "" then some (cn, up) else chainLocalEnv st
    | _ => chainLocalEnv st

/-- The localStorage tier as `supabase-config.ts` reads it. -/
def scLocalChain (st : CfgState) : Option (String × String) :=
  match st.localCloudName, st.localUploadPreset with
  | some cn, some up => if cn ≠ "" ∧ up ≠ "" then some (cn, up) else none
  | _, _ => none

/-- The three-tier chain the `supabase-config.ts` implementation actually
follows: cache, else any present remote row, else the localStorage keys,
else not configured — with no environment tier. -/
def scFallbackChain (st : CfgState) : Option (String × String) :=
  match st.cache with
  | some c => some c
  | none =>
    match st.remote with
    | RemoteSettings.row cn up => some (cn, up)
    | _ => scLocalChain st

lemma ccLocalEnvTiers_result (st : CfgState) (fetched : Bool) :
    (ccLocalEnvTiers st fetched).result = chainLocalEnv st := by
  obtain ⟨c, r, l1, l2, e1, e2⟩ := st
  rw [ccLocalEnvTiers, chainLocalEnv]
  cases hl : getLocalConfig ⟨c, r, l1, l2, e1, e2⟩ with
  | some cfg => rfl
  | none =>
      dsimp only
      cases e1 with
      | none => rfl
      | some a =>
          cases e2 with
          | none => rfl
          | some b =>
              dsimp only
              by_cases hab : a ≠ "" ∧ b ≠ ""
              · rw [if_pos hab, if_pos hab]
              · rw [if_neg hab, if_neg hab]

lemma scLocalTier_result (st : CfgState) (fetched : Bool) :
    (scLocalTier st fetched).result = scLocalChain st := by
  obtain ⟨c, r, l1, l2, e1, e2⟩ := st
  rw [scLocalTier, scLocalChain]
  cases l1 with
  | none => rfl
  | some a =>
      cases l2 with
      | none => rfl
      | some b =>
          dsimp only
          by_cases hab : a ≠ "" ∧ b ≠ ""
          · rw [if_pos hab, if_pos hab]
          · rw [if_neg hab, if_neg hab]

/-- A state in which only the environment defaults are set. -/
def envOnlyState : CfgState :=
  { cache := none, remote := RemoteSettings.noRow, localCloudName := none
    localUploadPreset := none, envCloudName := some "envcloud"
    envUploadPreset := some "envpreset" }

/-- C5 counterexample: the claimed fallback order does not hold of the
`supabase-config.ts` implementation of `loadCloudinarySettings` (a cited
source). In a state where only the two environment defaults are set, the
claimed chain yields the env pair at its fourth tier, but that implementation
returns `null`. -/
theorem supabase_config_load_skips_env_tier :
    (loadCloudinarySettingsSC envOnlyState).result = none
    ∧ claimedFallbackChain envOnlyState = some ("envcloud", "envpreset") := by
  exact ⟨rfl, rfl⟩

/-- C5 amended: the `cloudinary-config.ts` implementation of
`loadCloudinarySettings` returns exactly the first yield of the claimed
five-tier chain (cache, remote row with truthy columns, localStorage keys, env
defaults, null); the `supabase-config.ts` implementation returns the first
yield of a three-tier chain (cache, any present remote row, localStorage keys,
null) and has no environment tier. -/
theorem load_settings_fallback_order (st : CfgState) :
    (loadCloudinarySettingsCC st).result = claimedFallbackChain st
    ∧ (loadCloudinarySettingsSC st).result = scFallbackChain st := by
  obtain ⟨cache, remote, lcn, lup, ecn, eup⟩ := st
  constructor
  · rw [loadCloudinarySettingsCC, claimedFallbackChain]
    cases cache with
    | some c => rfl
    | none =>
        dsimp only
        cases remote with
        | notConfigured => exact ccLocalEnvTiers_result _ _
        | fetchError => exact ccLocalEnvTiers_result _ _
        | noRow => exact ccLocalEnvTiers_result _ _
        | row cn up =>
            dsimp only
            by_cases hcu : cn ≠ "" ∧ up ≠ ""
            · rw [if_pos hcu, if_pos hcu]
            · rw [if_neg hcu, if_neg hcu]
              exact ccLocalEnvTiers_result _ _
  · rw [loadCloudinarySettingsSC, scFallbackChain]
    cases cache with
    | some c => rfl
    | none =>
        dsimp only
        cases remote with
        | notConfigured => exact scLocalTier_result _ _
        | fetchError => exact scLocalTier_result _ _
        | noRow => exact scLocalTier_result _ _
        | row cn up => rfl

/-- `saveCloudinarySettings` of `cloudinary-config.ts` (lines 78-139): the
cache and both localStorage keys are set unconditionally before the remote
write; when the backend is configured the row is deleted and reinserted
(`dbOk` = the insert succeeded; a failed insert leaves the row deleted) and
the returned flag mirrors the success/failure message of the source. -/
def saveCloudinarySettingsCC (cn up : String) (dbOk : Bool) (st : CfgState) :
    CfgState × Bool :=
  let st1 : CfgState :=
    { st with
        cache := some (cn, up)
        localCloudName := some cn
        localUploadPreset := some up }
  match st.remote with
  | RemoteSettings.notConfigured => (st1, false)
  | _ =>
      if dbOk then ({ st1 with remote := RemoteSettings.row cn up }, true)
      else ({ st1 with remote := RemoteSettings.noRow }, false)

/-- `saveCloudinarySettings` of `supabase-config.ts` (lines 65-95): on a
successful upsert the cache and localStorage mirror are set; on a missing
backend or a failed upsert the bottom fallback sets them as well, so the call
always returns `true` with cache and both keys holding the pair. -/
def saveCloudinarySettingsSC (cn up : String) (dbOk : Bool) (st : CfgState) :
    CfgState × Bool :=
  let st1 : CfgState :=
    { st with
        cache := some (cn, up)
        localCloudName := some cn
        localUploadPreset := some up }
  match st.remote with
  | RemoteSettings.notConfigured => (st1, true)
  | _ =>
      if dbOk then ({ st1 with remote := RemoteSettings.row cn up }, true)
      else (st1, true)

/-- C6: after either `saveCloudinarySettings(cloudName, uploadPreset)`
completes, a subsequent `loadCloudinarySettings` returns exactly that pair
from the in-memory cache, issues no remote fetch, and both localStorage keys
mirror the pair — for every prior state and every remote-write outcome. -/
theorem save_then_load_cached (cn up : String) (dbOk : Bool) (st : CfgState) :
    ((loadCloudinarySettingsCC (saveCloudinarySettingsCC cn up dbOk st).1).result
        = some (cn, up)
      ∧ (loadCloudinarySettingsCC (saveCloudinarySettingsCC cn up dbOk st).1).remoteFetched
        = false
      ∧ (saveCloudinarySettingsCC cn up dbOk st).1.localCloudName = some cn
      ∧ (saveCloudinarySettingsCC cn up dbOk st).1.localUploadPreset = some up)
    ∧ ((loadCloudinarySettingsSC (saveCloudinarySettingsSC cn up dbOk st).1).result
        = some (cn, up)
      ∧ (loadCloudinarySettingsSC (saveCloudinarySettingsSC cn up dbOk st).1).remoteFetched
        = false
      ∧ (saveCloudinarySettingsSC cn up dbOk st).1.localCloudName = some cn
      ∧ (saveCloudinarySettingsSC cn up dbOk st).1.localUploadPreset = some up) := by
  obtain ⟨c, r, l1, l2, e1, e2⟩ := st
  constructor
  · rw [saveCloudinarySettingsCC]
    cases r with
    | notConfigured => exact ⟨rfl, rfl, rfl, rfl⟩
    | fetchError =>
        cases dbOk <;> exact ⟨rfl, rfl, rfl, rfl⟩
    | noRow =>
        cases dbOk <;> exact ⟨rfl, rfl, rfl, rfl⟩
    | row a b =>
        cases dbOk <;> exact ⟨rfl, rfl, rfl, rfl⟩
  · rw [saveCloudinarySettingsSC]
    cases r with
    | notConfigured => exact ⟨rfl, rfl, rfl, rfl⟩
    | fetchError =>
        cases dbOk <;> exact ⟨rfl, rfl, rfl, rfl⟩
    | noRow =>
        cases dbOk <;> exact ⟨rfl, rfl, rfl, rfl⟩
    | row a b =>
        cases dbOk <;> exact ⟨rfl, rfl, rfl, rfl⟩

end ClassX
